import Mathlib

/-
  Shallow embedding of the certificate authentication gateway:
  the Express middleware `validateClientCertificate` and the allow-list
  functions `loadWhitelist`, `getClientFingerprint`,
  `checkCertificateWhitelist` from middleware/certificate-validation.js,
  plus the temporal helpers from utils/certificate-validator.js.

  JavaScript conventions modelled explicitly:
  - a possibly-undefined string field is `Option String` (none = undefined);
  - `a === b` on such fields is `Option` equality (undefined === undefined
    is true, undefined === "s" is false);
  - `x || d` on a string field treats both undefined and "" as falsy;
  - string interpolation of undefined renders "undefined";
  - a thrown exception is `Except.error`.
-/

namespace CertAuth

/-- JavaScript `x || defaultValue` for a possibly-undefined string field:
undefined and the empty string are falsy. -/
def jsOrDefault (v : Option String) (d : String) : String :=
  match v with
  | none => d
  | some s => if s = "" then d else s

/-- JavaScript template-literal rendering of a possibly-undefined string. -/
def jsShow (v : Option String) : String :=
  match v with
  | none => "undefined"
  | some s => s

/-- JavaScript `String.prototype.toLowerCase` on the ASCII alphabet. -/
def jsToLowerCase (s : String) : String :=
  String.mk (s.data.map Char.toLower)

/-- JavaScript `String.prototype.toUpperCase` on the ASCII alphabet. -/
def jsToUpperCase (s : String) : String :=
  String.mk (s.data.map Char.toUpper)

/-- Decides whether `needle` occurs at the start of `hay`. -/
def subListAt : List Char → List Char → Bool
  | [], _ => true
  | _ :: _, [] => false
  | a :: as, b :: bs => a == b && subListAt as bs

/-- Decides whether `needle` occurs contiguously anywhere in `hay`. -/
def subListOf (needle : List Char) : List Char → Bool
  | [] => needle.isEmpty
  | c :: tl => subListAt needle (c :: tl) || subListOf needle tl

/-- Substring test on strings, used to state "reason contains ...". -/
def strContainsStr (hay needle : String) : Bool :=
  subListOf needle.data hay.data

/-- One record of `whitelistedCertificates` in config/whitelist.json.
A missing field is `none`. -/
structure WhitelistEntry where
  fingerprint : Option String
  description : Option String
  enabled : Bool
  deriving Repr, DecidableEq

/-- The parsed whitelist document (config/whitelist.json). -/
structure WhitelistConfig where
  whitelistEnabled : Bool
  whitelistedCertificates : Option (List WhitelistEntry)
  hashAlgorithm : Option String
  deriving Repr, DecidableEq

/-- Outcome of reading and parsing the backing whitelist file:
the file is missing, or reading or parsing threw, or it parsed. -/
inductive ReadResult where
  | missing
  | parseError (msg : String)
  | ok (cfg : WhitelistConfig)
  deriving Repr, DecidableEq

/-- The fallback document installed by `loadWhitelist` on failure:
`{ whitelistEnabled: false, whitelistedCertificates: [] }`. -/
def fallbackConfig : WhitelistConfig :=
  { whitelistEnabled := false, whitelistedCertificates := some [], hashAlgorithm := none }

/-- `loadWhitelist()` as a function of the file-read outcome: on success
installs the parsed document, on a missing file or a read or parse
failure installs the fallback document; it never rethrows. -/
def loadWhitelist (r : ReadResult) : WhitelistConfig :=
  match r with
  | .ok cfg => cfg
  | .missing => fallbackConfig
  | .parseError _ => fallbackConfig

/-- Module state of certificate-validation.js: the in-memory
`whitelistConfig` variable (null until first load) together with the
current content of the backing file. -/
structure Store where
  whitelistConfig : Option WhitelistConfig
  file : ReadResult
  deriving Repr, DecidableEq

/-- Explicit `loadWhitelist()` call on the module state. -/
def loadWhitelistS (s : Store) : Store :=
  { s with whitelistConfig := some (loadWhitelist s.file) }

/-- Lazy-load step at the top of `getClientFingerprint` and
`checkCertificateWhitelist`: load only when `whitelistConfig` is null. -/
def ensureLoaded (s : Store) : WhitelistConfig × Store :=
  match s.whitelistConfig with
  | some cfg => (cfg, s)
  | none => (loadWhitelist s.file, loadWhitelistS s)

/-- `whitelistConfig.hashAlgorithm || 'sha1'`. -/
def effectiveHashAlgorithm (cfg : WhitelistConfig) : String :=
  jsOrDefault cfg.hashAlgorithm "sha1"

/-- A peer certificate as returned by `getPeerCertificate()`.
`subject`/`issuer` are attribute lists; `valid_from`/`valid_to` are the
certificate's not-before/not-after instants (milliseconds); the two
digest fields may be absent. -/
structure JsCert where
  subject : Option (List (String × String))
  issuer : Option (List (String × String))
  serialNumber : Option String
  valid_from : Int
  valid_to : Int
  fingerprint : Option String
  fingerprint256 : Option String
  deriving Repr, DecidableEq

/-- `getClientFingerprint(clientCert)` with the loaded config explicit:
the SHA-256 digest field when the configured algorithm lower-cases to
"sha256", otherwise the SHA-1 digest field. -/
def getClientFingerprint (cfg : WhitelistConfig) (clientCert : JsCert) : Option String :=
  if jsToLowerCase (effectiveHashAlgorithm cfg) = "sha256" then
    clientCert.fingerprint256
  else
    clientCert.fingerprint

/-- `{ allowed, reason }` decision record. -/
structure Decision where
  allowed : Bool
  reason : String
  deriving Repr, DecidableEq

/-- Body of `checkCertificateWhitelist(clientCert)` once the config is
loaded: disabled document allows everything; otherwise `find` the first
entry with `cert.enabled && cert.fingerprint === clientFingerprint`. -/
def checkWhitelistLoaded (cfg : WhitelistConfig) (clientCert : JsCert) : Decision :=
  if !cfg.whitelistEnabled then
    { allowed := true, reason := "Whitelist disabled" }
  else
    let clientFingerprint := getClientFingerprint cfg clientCert
    let hashAlgorithm := effectiveHashAlgorithm cfg
    let whitelistedCerts := cfg.whitelistedCertificates.getD []
    match whitelistedCerts.find? (fun c => c.enabled && c.fingerprint == clientFingerprint) with
    | some matchingCert =>
      { allowed := true,
        reason := "Certificate whitelisted: " ++ jsOrDefault matchingCert.description "No description" }
    | none =>
      { allowed := false,
        reason := "Certificate fingerprint not found in whitelist (using "
          ++ jsToUpperCase hashAlgorithm ++ ": " ++ jsShow clientFingerprint ++ ")" }

/-- `checkCertificateWhitelist(clientCert)` with its lazy load. -/
def checkCertificateWhitelist (s : Store) (clientCert : JsCert) : Decision × Store :=
  let es := ensureLoaded s
  (checkWhitelistLoaded es.1 clientCert, es.2)

/-- `getClientFingerprint(clientCert)` with its lazy load. -/
def getClientFingerprintS (s : Store) (clientCert : JsCert) : Option String × Store :=
  let es := ensureLoaded s
  (getClientFingerprint es.1 clientCert, es.2)

/-- Result of the temporal check in `validateClientCertificate`. -/
inductive TemporalStatus where
  | valid
  | notYetValid
  | expired
  deriving Repr, DecidableEq

/-- The middleware's date checks in evaluation order: `now < validFrom`
denies as not yet valid, then `now > validTo` denies as expired,
otherwise the certificate is temporally valid. -/
def temporalStatus (now validFrom validTo : Int) : TemporalStatus :=
  if now < validFrom then TemporalStatus.notYetValid
  else if now > validTo then TemporalStatus.expired
  else TemporalStatus.valid

/-- Comparison core of `isCertificateExpired` (utils/certificate-validator.js). -/
def isCertificateExpired (now validTo : Int) : Bool :=
  decide (now > validTo)

/-- Comparison core of `isCertificateNotYetValid` (utils/certificate-validator.js). -/
def isCertificateNotYetValid (now validFrom : Int) : Bool :=
  decide (now < validFrom)

/-- The TLS socket as the middleware reads it. -/
structure Socket where
  authorized : Bool
  authorizationError : Option String
  deriving Repr, DecidableEq

/-- An inbound request: the outcome of `getPeerCertificate()` (which can
throw, return null-ish, or return a certificate), the socket (absent
socket makes `req.socket.authorized` throw), and the current time. -/
structure Request where
  peerCert : Except String (Option JsCert)
  socket : Option Socket
  now : Int

/-- A `res.status(...).json({ error, details })` response. -/
structure HttpResponse where
  status : Nat
  error : String
  details : String
  deriving Repr, DecidableEq

/-- The identity record the middleware assigns to `req.clientCertificate`. -/
structure Identity where
  subject : Option (List (String × String))
  issuer : Option (List (String × String))
  serialNumber : Option String
  fingerprint : Option String
  valid_from : Int
  valid_to : Int
  valid : Bool
  deriving Repr, DecidableEq

/-- Observable effect of one middleware run: the response sent (if any),
the identity attached to the request (if any), whether `next()` ran. -/
structure MwResult where
  response : Option HttpResponse
  clientCertificate : Option Identity
  nextCalled : Bool
  deriving Repr, DecidableEq

/-- A deny terminal: respond, attach nothing, do not call `next()`. -/
def denyResult (status : Nat) (err details : String) : MwResult :=
  { response := some { status := status, error := err, details := details },
    clientCertificate := none, nextCalled := false }

/-- `!clientCert || !clientCert.subject || Object.keys(clientCert.subject).length === 0`
for a present certificate object. -/
def subjectEmpty (c : JsCert) : Bool :=
  match c.subject with
  | none => true
  | some kvs => kvs.isEmpty

/-- The body of `validateClientCertificate` inside the outer `try`:
faithful control flow of the middleware. `Except.error` is an
uncaught JavaScript throw reaching the outer catch (the only such
throw site is reading `req.socket.authorized` with no socket). -/
def validateBody (st : Store) (req : Request) : Except String MwResult × Store :=
  match req.peerCert with
  | .error _ =>
    (Except.ok (denyResult 401 "Client certificate validation failed" "Certificate parsing failed"), st)
  | .ok none =>
    (Except.ok (denyResult 401 "Client certificate validation failed" "No client certificate provided"), st)
  | .ok (some clientCert) =>
    if subjectEmpty clientCert then
      (Except.ok (denyResult 401 "Client certificate validation failed" "No client certificate provided"), st)
    else
      match req.socket with
      | none => (Except.error "TypeError: cannot read authorized of undefined", st)
      | some socket =>
        -- first `!req.socket.authorized` check: logs a warning only
        if req.now < clientCert.valid_from then
          (Except.ok (denyResult 401 "Client certificate validation failed"
            ("Certificate not yet valid. Valid from: " ++ toString clientCert.valid_from)), st)
        else if req.now > clientCert.valid_to then
          (Except.ok (denyResult 401 "Client certificate validation failed"
            ("Certificate expired. Valid until: " ++ toString clientCert.valid_to)), st)
        else if !socket.authorized then
          (Except.ok (denyResult 401 "Client certificate validation failed"
            (jsOrDefault socket.authorizationError "Certificate not trusted")), st)
        else
          let wc := checkCertificateWhitelist st clientCert
          if !wc.1.allowed then
            (Except.ok (denyResult 403 "Certificate not authorized" wc.1.reason), wc.2)
          else
            let fp := getClientFingerprintS wc.2 clientCert
            (Except.ok
              { response := none,
                clientCertificate := some
                  { subject := clientCert.subject,
                    issuer := clientCert.issuer,
                    serialNumber := clientCert.serialNumber,
                    fingerprint := fp.1,
                    valid_from := clientCert.valid_from,
                    valid_to := clientCert.valid_to,
                    valid := true },
                nextCalled := true }, fp.2)

/-- `validateClientCertificate(req, res, next)`: the body wrapped in the
outer try/catch that converts any uncaught throw into the generic 500
internal-error response. -/
def validateClientCertificate (st : Store) (req : Request) : MwResult × Store :=
  match validateBody st req with
  | (.ok r, st1) => (r, st1)
  | (.error _, st1) =>
    (denyResult 500 "Internal server error during certificate validation"
      "Please contact administrator", st1)

/-! Concrete instances used to exhibit counterexamples and witnesses. -/

/-- A well-formed client certificate, valid from time 0 to time 100. -/
def certOk : JsCert :=
  { subject := some [("CN", "Demo Client"), ("O", "Certificate Demo")],
    issuer := some [("CN", "Demo CA")],
    serialNumber := some "01",
    valid_from := 0, valid_to := 100,
    fingerprint := some "AA:BB", fingerprint256 := some "CC:DD" }

/-- An enabled whitelist whose single enabled entry matches `certOk`'s
SHA-1 fingerprint exactly (default algorithm). -/
def cfgAllow : WhitelistConfig :=
  { whitelistEnabled := true,
    whitelistedCertificates :=
      some [{ fingerprint := some "AA:BB", description := some "demo client", enabled := true }],
    hashAlgorithm := none }

/-- Same whitelist as `cfgAllow` but with the entry fingerprint written in
lower case. -/
def cfgLower : WhitelistConfig :=
  { whitelistEnabled := true,
    whitelistedCertificates :=
      some [{ fingerprint := some "aa:bb", description := some "demo client", enabled := true }],
    hashAlgorithm := none }

/-- Module state with `cfgAllow` already installed in memory. -/
def stAllow : Store := { whitelistConfig := some cfgAllow, file := ReadResult.ok cfgAllow }

/-- A request presenting `certOk` inside its validity window over a socket
the TLS layer did not authorize. -/
def reqUnauth : Request :=
  { peerCert := Except.ok (some certOk),
    socket := some { authorized := false, authorizationError := none }, now := 50 }

/-- The same request over an authorized socket. -/
def reqAuth : Request :=
  { peerCert := Except.ok (some certOk),
    socket := some { authorized := true, authorizationError := none }, now := 50 }

/-- A request whose `getPeerCertificate()` throws. -/
def reqThrow : Request := { peerCert := Except.error "boom", socket := none, now := 0 }

/-- A request with a good certificate but no socket object, so reading
`req.socket.authorized` throws inside the middleware body. -/
def reqNoSocket : Request := { peerCert := Except.ok (some certOk), socket := none, now := 50 }

/-- A certificate carrying only a SHA-1 digest: its `fingerprint256`
field is absent. -/
def certNoDigest : JsCert :=
  { subject := some [("CN", "x")], issuer := some [("CN", "y")], serialNumber := none,
    valid_from := 0, valid_to := 100, fingerprint := some "AA:BB", fingerprint256 := none }

/-- An enabled SHA-256 whitelist whose single enabled entry has the empty
string as its fingerprint. -/
def cfgSha256Empty : WhitelistConfig :=
  { whitelistEnabled := true,
    whitelistedCertificates :=
      some [{ fingerprint := some "", description := some "empty", enabled := true }],
    hashAlgorithm := some "sha256" }

/-- An enabled SHA-256 whitelist whose single enabled entry has no
fingerprint field at all. -/
def cfgNoFp : WhitelistConfig :=
  { whitelistEnabled := true,
    whitelistedCertificates :=
      some [{ fingerprint := none, description := some "broken", enabled := true }],
    hashAlgorithm := some "sha256" }

end CertAuth

namespace CertAuth

/-! Helper lemmas about the substring test. -/

theorem subListAt_append (n t : List Char) : subListAt n (n ++ t) = true := by
  induction n with
  | nil => rfl
  | cons a as ih => simp [subListAt, ih]

theorem subListAt_extend (n : List Char) :
    ∀ h t, subListAt n h = true → subListAt n (h ++ t) = true := by
  induction n with
  | nil => intro h t _; rfl
  | cons a as ih =>
    intro h t hat
    cases h with
    | nil => simp [subListAt] at hat
    | cons b bs =>
      simp only [subListAt, Bool.and_eq_true] at hat
      simp only [List.cons_append, subListAt, Bool.and_eq_true]
      exact ⟨hat.1, ih bs t hat.2⟩

theorem subListOf_nil_needle (h : List Char) : subListOf [] h = true := by
  cases h <;> simp [subListOf, subListAt, List.isEmpty]

theorem subListOf_of_subListAt (n h : List Char) (hat : subListAt n h = true) :
    subListOf n h = true := by
  cases h with
  | nil =>
    cases n with
    | nil => rfl
    | cons a as => simp [subListAt] at hat
  | cons c tl => simp [subListOf, hat]

theorem subListOf_append_right (n t : List Char) (hsub : subListOf n t = true) (h : List Char) :
    subListOf n (h ++ t) = true := by
  induction h with
  | nil => simpa using hsub
  | cons c h2 ih =>
    simp only [List.cons_append, subListOf, List.append_eq, ih, Bool.or_true]

theorem subListOf_append_left (n : List Char) :
    ∀ h t, subListOf n h = true → subListOf n (h ++ t) = true := by
  intro h
  induction h with
  | nil =>
    intro t hsub
    have hn : n = [] := by
      cases n with
      | nil => rfl
      | cons a as => simp [subListOf, List.isEmpty] at hsub
    subst hn
    simpa using subListOf_nil_needle t
  | cons c h2 ih =>
    intro t hsub
    have heq : subListOf n (c :: h2) = (subListAt n (c :: h2) || subListOf n h2) := rfl
    rw [heq] at hsub
    rcases Bool.or_eq_true_iff.mp hsub with hat | hof
    · exact subListOf_of_subListAt _ _ (subListAt_extend n (c :: h2) t hat)
    · simp only [List.cons_append, subListOf, List.append_eq, ih t hof, Bool.or_true]

theorem strContains_self (n : String) : strContainsStr n n = true := by
  unfold strContainsStr
  exact subListOf_of_subListAt _ _ (by simpa using subListAt_append n.data [])

theorem strContains_append_left (x y n : String) (hc : strContainsStr x n = true) :
    strContainsStr (x ++ y) n = true := by
  unfold strContainsStr at hc ⊢
  rw [String.data_append]
  exact subListOf_append_left _ _ _ hc

theorem strContains_append_right (x y n : String) (hc : strContainsStr y n = true) :
    strContainsStr (x ++ y) n = true := by
  unfold strContainsStr at hc ⊢
  rw [String.data_append]
  exact subListOf_append_right _ _ hc _

/-! Helper lemmas about whitelist lookup. -/

theorem find?_append_first {α : Type} (p : α → Bool) (e : α) :
    ∀ pre post, (∀ x ∈ pre, p x = false) → p e = true →
      List.find? p (pre ++ e :: post) = some e := by
  intro pre
  induction pre with
  | nil =>
    intro post _ hpe
    simpa using List.find?_cons_of_pos _ hpe
  | cons a pre2 ih =>
    intro post hpre hpe
    have ha : p a = false := hpre a (by simp)
    rw [List.cons_append, List.find?_cons_of_neg _ (by simp [ha])]
    exact ih post (fun x hx => hpre x (by simp [hx])) hpe

theorem entry_pred_false (cert : JsCert) (cfg : WhitelistConfig) (x : WhitelistEntry)
    (hx : ¬(x.enabled = true ∧ x.fingerprint = getClientFingerprint cfg cert)) :
    (x.enabled && x.fingerprint == getClientFingerprint cfg cert) = false := by
  cases hxe : x.enabled with
  | false => simp
  | true =>
    cases hxf : x.fingerprint == getClientFingerprint cfg cert with
    | false => simp [hxf]
    | true => exact absurd ⟨hxe, beq_iff_eq.mp hxf⟩ hx

theorem checkWhitelist_match_found (cfg : WhitelistConfig) (cert : JsCert)
    (pre : List WhitelistEntry) (e : WhitelistEntry) (post : List WhitelistEntry)
    (hen : cfg.whitelistEnabled = true)
    (hsplit : cfg.whitelistedCertificates.getD [] = pre ++ e :: post)
    (hpre : ∀ e2 ∈ pre, ¬(e2.enabled = true ∧ e2.fingerprint = getClientFingerprint cfg cert))
    (hee : e.enabled = true)
    (hef : e.fingerprint = getClientFingerprint cfg cert) :
    checkWhitelistLoaded cfg cert =
      { allowed := true,
        reason := "Certificate whitelisted: " ++ jsOrDefault e.description "No description" } := by
  have hfind : (cfg.whitelistedCertificates.getD []).find?
      (fun c => c.enabled && c.fingerprint == getClientFingerprint cfg cert) = some e := by
    rw [hsplit]
    exact find?_append_first _ e pre post
      (fun x hx => entry_pred_false cert cfg x (hpre x hx))
      (by simp [hee, hef])
  simp [checkWhitelistLoaded, hen, hfind]

theorem checkWhitelist_no_match (cfg : WhitelistConfig) (cert : JsCert)
    (hen : cfg.whitelistEnabled = true)
    (hall : ∀ e2 ∈ cfg.whitelistedCertificates.getD [],
      ¬(e2.enabled = true ∧ e2.fingerprint = getClientFingerprint cfg cert)) :
    checkWhitelistLoaded cfg cert =
      { allowed := false,
        reason := "Certificate fingerprint not found in whitelist (using "
          ++ jsToUpperCase (effectiveHashAlgorithm cfg) ++ ": "
          ++ jsShow (getClientFingerprint cfg cert) ++ ")" } := by
  have hfind : (cfg.whitelistedCertificates.getD []).find?
      (fun c => c.enabled && c.fingerprint == getClientFingerprint cfg cert) = none := by
    rw [List.find?_eq_none]
    intro x hx
    simp [entry_pred_false cert cfg x (hall x hx)]
  simp [checkWhitelistLoaded, hen, hfind]

/-! Helper lemma about the shape of every middleware outcome. -/

theorem validate_shape (st : Store) (req : Request) :
    ((validateClientCertificate st req).1.nextCalled = true ∧
      (validateClientCertificate st req).1.response = none ∧
      ∃ id2, (validateClientCertificate st req).1.clientCertificate = some id2 ∧
        id2.valid = true) ∨
    ((validateClientCertificate st req).1.nextCalled = false ∧
      (validateClientCertificate st req).1.clientCertificate = none ∧
      (validateClientCertificate st req).1.response.isSome = true) := by
  rcases req with ⟨pc, sock, t⟩
  unfold validateClientCertificate validateBody
  rcases pc with msg | oc
  · right; simp [denyResult]
  · rcases oc with _ | c
    · right; simp [denyResult]
    · by_cases hs : subjectEmpty c = true
      · right; simp [hs, denyResult]
      · simp only [hs]
        rcases sock with _ | s
        · right; simp [hs, denyResult]
        · simp only [hs, Bool.false_eq_true, if_false]
          by_cases h1 : t < c.valid_from
          · right; simp [h1, denyResult]
          · by_cases h2 : t > c.valid_to
            · right; simp [h1, h2, denyResult]
            · by_cases h3 : s.authorized = true
              · by_cases h4 : (checkCertificateWhitelist st c).1.allowed = true
                · left; simp [h1, h2, h3, h4, denyResult]
                · right; simp [h1, h2, h3, h4, denyResult]
              · right
                have h3f : s.authorized = false := by
                  cases hsa : s.authorized
                  · rfl
                  · exact absurd hsa h3
                simp [h1, h2, h3f, denyResult]

end CertAuth

namespace CertAuth

/-- Claim C1 counterexample: `certOk` has a non-empty subject, `reqUnauth`
presents it inside its validity window, and its fingerprint is admitted by
the installed allow-list, yet with `socket.authorized = false` the
middleware does not call the handler and sends a 401 deny terminal
("Certificate not trusted"), so a false TrustSignal is by itself fatal. -/
theorem c1_trust_signal_cx :
    (checkWhitelistLoaded cfgAllow certOk).allowed = true ∧
    subjectEmpty certOk = false ∧
    certOk.valid_from ≤ reqUnauth.now ∧ reqUnauth.now ≤ certOk.valid_to ∧
    reqUnauth.socket = some { authorized := false, authorizationError := none } ∧
    (validateClientCertificate stAllow reqUnauth).1.nextCalled = false ∧
    (validateClientCertificate stAllow reqUnauth).1.response =
      some { status := 401, error := "Client certificate validation failed",
             details := "Certificate not trusted" } := by decide

/-- Claim C1 amended: for every request whose certificate has a non-empty
subject and is inside its validity window, a false TrustSignal
(socket.authorized = false) is logged as a warning at the chain-check
stage but then, after the temporal checks, by itself produces a 401 deny
terminal whose details are the socket's authorization error or
"Certificate not trusted"; the allow-list is never consulted and the
request is not admitted. -/
theorem c1_unauthorized_socket_denies (st : Store) (cert : JsCert) (sock : Socket) (t : Int)
    (hsub : subjectEmpty cert = false)
    (hauth : sock.authorized = false)
    (h1 : ¬ t < cert.valid_from) (h2 : ¬ t > cert.valid_to) :
    (validateClientCertificate st
        { peerCert := Except.ok (some cert), socket := some sock, now := t }).1 =
      denyResult 401 "Client certificate validation failed"
        (jsOrDefault sock.authorizationError "Certificate not trusted") := by
  unfold validateClientCertificate validateBody
  simp [hsub, hauth, h1, h2]

/-- Claim C1 witness: the amended theorem applied to `reqUnauth`. -/
theorem c1_unauthorized_socket_denies_witness :
    subjectEmpty certOk = false ∧
    (validateClientCertificate stAllow reqUnauth).1 =
      denyResult 401 "Client certificate validation failed" "Certificate not trusted" := by
  refine ⟨by decide, ?_⟩
  exact c1_unauthorized_socket_denies stAllow certOk
    { authorized := false, authorizationError := none } 50
    (by decide) rfl (by decide) (by decide)

/-- Claim C2: when the backing document is absent or fails to parse,
loadWhitelist installs the fallback document
`{whitelistEnabled: false, whitelistedCertificates: []}` without
rethrowing, and checkCertificateWhitelist then allows every certificate
with the whitelist-disabled reason (fail-open). -/
theorem c2_load_failure_fail_open (s : Store)
    (h : s.file = ReadResult.missing ∨ ∃ msg, s.file = ReadResult.parseError msg) :
    (loadWhitelistS s).whitelistConfig = some fallbackConfig ∧
    fallbackConfig =
      { whitelistEnabled := false, whitelistedCertificates := some [], hashAlgorithm := none } ∧
    ∀ cert : JsCert,
      (checkCertificateWhitelist (loadWhitelistS s) cert).1 =
        { allowed := true, reason := "Whitelist disabled" } := by
  have hload : loadWhitelist s.file = fallbackConfig := by
    rcases h with h | ⟨msg, h⟩ <;> simp [loadWhitelist, h]
  refine ⟨by simp [loadWhitelistS, hload], rfl, ?_⟩
  intro cert
  simp [checkCertificateWhitelist, ensureLoaded, loadWhitelistS, hload,
    checkWhitelistLoaded, fallbackConfig]

/-- Claim C2 witness: the theorem applied to a store whose backing file is
missing, and the certificate `certNoDigest`. -/
theorem c2_load_failure_fail_open_witness :
    (loadWhitelistS { whitelistConfig := none, file := ReadResult.missing }).whitelistConfig =
      some fallbackConfig ∧
    (checkCertificateWhitelist
        (loadWhitelistS { whitelistConfig := none, file := ReadResult.missing }) certNoDigest).1 =
      { allowed := true, reason := "Whitelist disabled" } := by
  have h := c2_load_failure_fail_open
    { whitelistConfig := none, file := ReadResult.missing } (Or.inl rfl)
  exact ⟨h.1, h.2.2 certNoDigest⟩

/-- Claim C3: with the document disabled every certificate is allowed with
the disabled reason; with it enabled, the scan returns allow with the
description of the first entry that is enabled and matches the presented
fingerprint, and otherwise returns deny with a reason containing
"not found", the upper-cased configured algorithm name, and the presented
fingerprint. -/
theorem c3_check_whitelist_cases (cfg : WhitelistConfig) (cert : JsCert) :
    (cfg.whitelistEnabled = false →
      checkWhitelistLoaded cfg cert = { allowed := true, reason := "Whitelist disabled" }) ∧
    (∀ pre e post,
      cfg.whitelistEnabled = true →
      cfg.whitelistedCertificates.getD [] = pre ++ e :: post →
      (∀ e2 ∈ pre, ¬(e2.enabled = true ∧ e2.fingerprint = getClientFingerprint cfg cert)) →
      e.enabled = true →
      e.fingerprint = getClientFingerprint cfg cert →
      (checkWhitelistLoaded cfg cert).allowed = true ∧
      strContainsStr (checkWhitelistLoaded cfg cert).reason
        (jsOrDefault e.description "No description") = true) ∧
    (cfg.whitelistEnabled = true →
      (∀ e2 ∈ cfg.whitelistedCertificates.getD [],
        ¬(e2.enabled = true ∧ e2.fingerprint = getClientFingerprint cfg cert)) →
      (checkWhitelistLoaded cfg cert).allowed = false ∧
      strContainsStr (checkWhitelistLoaded cfg cert).reason "not found" = true ∧
      strContainsStr (checkWhitelistLoaded cfg cert).reason
        (jsToUpperCase (effectiveHashAlgorithm cfg)) = true ∧
      strContainsStr (checkWhitelistLoaded cfg cert).reason
        (jsShow (getClientFingerprint cfg cert)) = true) := by
  refine ⟨?_, ?_, ?_⟩
  · intro hd
    simp [checkWhitelistLoaded, hd]
  · intro pre e post hen hsplit hpre hee hef
    rw [checkWhitelist_match_found cfg cert pre e post hen hsplit hpre hee hef]
    exact ⟨rfl, strContains_append_right _ _ _ (strContains_self _)⟩
  · intro hen hall
    rw [checkWhitelist_no_match cfg cert hen hall]
    refine ⟨rfl, ?_, ?_, ?_⟩
    · refine strContains_append_left _ _ _ ?_
      refine strContains_append_left _ _ _ ?_
      refine strContains_append_left _ _ _ ?_
      exact strContains_append_left _ _ _ (by decide)
    · refine strContains_append_left _ _ _ ?_
      refine strContains_append_left _ _ _ ?_
      refine strContains_append_left _ _ _ ?_
      exact strContains_append_right _ _ _ (strContains_self _)
    · refine strContains_append_left _ _ _ ?_
      exact strContains_append_right _ _ _ (strContains_self _)

/-- Claim C3 witness: the three branches applied to the disabled fallback
document, to `cfgAllow` (whose only entry matches `certOk`), and to
`cfgLower` (whose only entry does not match `certOk`). -/
theorem c3_check_whitelist_cases_witness :
    (checkWhitelistLoaded fallbackConfig certOk =
      { allowed := true, reason := "Whitelist disabled" }) ∧
    ((checkWhitelistLoaded cfgAllow certOk).allowed = true ∧
      strContainsStr (checkWhitelistLoaded cfgAllow certOk).reason
        (jsOrDefault (some "demo client") "No description") = true) ∧
    ((checkWhitelistLoaded cfgLower certOk).allowed = false ∧
      strContainsStr (checkWhitelistLoaded cfgLower certOk).reason "not found" = true ∧
      strContainsStr (checkWhitelistLoaded cfgLower certOk).reason
        (jsToUpperCase (effectiveHashAlgorithm cfgLower)) = true ∧
      strContainsStr (checkWhitelistLoaded cfgLower certOk).reason
        (jsShow (getClientFingerprint cfgLower certOk)) = true) := by
  refine ⟨(c3_check_whitelist_cases fallbackConfig certOk).1 rfl, ?_, ?_⟩
  · exact (c3_check_whitelist_cases cfgAllow certOk).2.1 []
      { fingerprint := some "AA:BB", description := some "demo client", enabled := true } []
      rfl rfl (by simp) rfl (by decide)
  · exact (c3_check_whitelist_cases cfgLower certOk).2.2 rfl (by decide)

/-- Claim C4: the temporal check is a pure function of the certificate's
bounds and the current time: NotYetValid exactly when now < not-before,
Expired exactly when now > not-after (the bounds being ordered), Valid
otherwise, with equality at either bound counting as valid; the
comparison cores of isCertificateExpired and isCertificateNotYetValid
agree with it. -/
theorem c4_temporal_validator (now nb na : Int) (h : nb ≤ na) :
    (temporalStatus now nb na = TemporalStatus.notYetValid ↔ now < nb) ∧
    (temporalStatus now nb na = TemporalStatus.expired ↔ now > na) ∧
    (temporalStatus now nb na = TemporalStatus.valid ↔ nb ≤ now ∧ now ≤ na) ∧
    temporalStatus nb nb na = TemporalStatus.valid ∧
    temporalStatus na nb na = TemporalStatus.valid ∧
    (isCertificateNotYetValid now nb = true ↔ now < nb) ∧
    (isCertificateExpired now na = true ↔ now > na) := by
  unfold temporalStatus isCertificateExpired isCertificateNotYetValid
  split_ifs <;> simp_all <;> omega

/-- Claim C4 witness: the theorem applied to the window [0, 100] at time
50 and at both bounds. -/
theorem c4_temporal_validator_witness :
    ((0 : Int) ≤ 100) ∧
    (temporalStatus 50 0 100 = TemporalStatus.valid ↔ (0 : Int) ≤ 50 ∧ (50 : Int) ≤ 100) ∧
    temporalStatus 0 0 100 = TemporalStatus.valid ∧
    temporalStatus 100 0 100 = TemporalStatus.valid := by
  have h := c4_temporal_validator 50 0 100 (by omega)
  exact ⟨by omega, h.2.2.1, h.2.2.2.1, h.2.2.2.2.1⟩

end CertAuth

namespace CertAuth

/-- Claim C5 counterexample: `cfgLower` differs from `cfgAllow` only in
the case of its entry's fingerprint hex letters (the lower-casing of
"AA:BB"), yet the decision for `certOk` flips from allow to deny, so the
comparison is not case-insensitive. -/
theorem c5_case_insensitivity_cx :
    jsToLowerCase "AA:BB" = "aa:bb" ∧
    (checkWhitelistLoaded cfgAllow certOk).allowed = true ∧
    (checkWhitelistLoaded cfgLower certOk).allowed = false := by decide

/-- Claim C5 amended: fingerprint comparison against allow-list entries is
case-sensitive exact string equality: for every enabled document, if each
enabled entry's fingerprint is a different string from the presented one
(for example a case variant of it), the decision is a deny. -/
theorem c5_fingerprint_match_case_sensitive (cfg : WhitelistConfig) (cert : JsCert)
    (hen : cfg.whitelistEnabled = true)
    (hdiff : ∀ e ∈ cfg.whitelistedCertificates.getD [],
      e.enabled = true → e.fingerprint ≠ getClientFingerprint cfg cert) :
    (checkWhitelistLoaded cfg cert).allowed = false := by
  rw [checkWhitelist_no_match cfg cert hen (fun e2 he2 hc => hdiff e2 he2 hc.1 hc.2)]

/-- Claim C5 witness: the amended theorem applied to `cfgLower` and
`certOk`, whose fingerprints differ only in case. -/
theorem c5_fingerprint_match_case_sensitive_witness :
    (checkWhitelistLoaded cfgLower certOk).allowed = false := by
  exact c5_fingerprint_match_case_sensitive cfgLower certOk rfl (by decide)

/-- Claim C6 counterexample: with `hashAlgorithm = "sha256"` and a
certificate without a `fingerprint256` field, the selector returns the
absent value (undefined), not the empty string; in particular an enabled
entry whose fingerprint is the empty string does not match it. -/
theorem c6_absent_digest_cx :
    getClientFingerprint cfgSha256Empty certNoDigest = none ∧
    getClientFingerprint cfgSha256Empty certNoDigest ≠ some "" ∧
    (checkWhitelistLoaded cfgSha256Empty certNoDigest).allowed = false := by decide

/-- Claim C6 amended: the selector returns the SHA-256 digest field when
the configured algorithm lower-cases to "sha256" and the SHA-1 digest
field otherwise (in particular when hashAlgorithm is unspecified); if the
requested digest field is absent it returns the absent value (undefined),
which never matches an entry whose fingerprint is present, so against
such entries the lookup degrades to deny rather than throwing. -/
theorem c6_fingerprint_selector (cfg : WhitelistConfig) (cert : JsCert) :
    (jsToLowerCase (effectiveHashAlgorithm cfg) = "sha256" →
      getClientFingerprint cfg cert = cert.fingerprint256) ∧
    (jsToLowerCase (effectiveHashAlgorithm cfg) ≠ "sha256" →
      getClientFingerprint cfg cert = cert.fingerprint) ∧
    (cfg.hashAlgorithm = none → getClientFingerprint cfg cert = cert.fingerprint) ∧
    (cfg.whitelistEnabled = true →
      getClientFingerprint cfg cert = none →
      (∀ e ∈ cfg.whitelistedCertificates.getD [], e.fingerprint ≠ none) →
      (checkWhitelistLoaded cfg cert).allowed = false) := by
  refine ⟨?_, ?_, ?_, ?_⟩
  · intro h
    simp [getClientFingerprint, h]
  · intro h
    simp [getClientFingerprint, h]
  · intro h
    have ha : effectiveHashAlgorithm cfg = "sha1" := by
      simp [effectiveHashAlgorithm, jsOrDefault, h]
    simp [getClientFingerprint, ha, show jsToLowerCase "sha1" ≠ "sha256" from by decide]
  · intro hen hfp hreal
    rw [checkWhitelist_no_match cfg cert hen
      (fun e2 he2 hc => hreal e2 he2 (hc.2.trans hfp))]

/-- Claim C6 witness: the selector branches applied to `cfgSha256Empty`
(sha256 configured) and `cfgAllow` (no algorithm configured), and the
deny consequence applied to a certificate without the requested digest. -/
theorem c6_fingerprint_selector_witness :
    getClientFingerprint cfgSha256Empty certNoDigest = certNoDigest.fingerprint256 ∧
    getClientFingerprint cfgAllow certOk = certOk.fingerprint ∧
    (checkWhitelistLoaded cfgSha256Empty certNoDigest).allowed = false := by
  refine ⟨(c6_fingerprint_selector cfgSha256Empty certNoDigest).1 (by decide),
    (c6_fingerprint_selector cfgAllow certOk).2.2.1 rfl,
    (c6_fingerprint_selector cfgSha256Empty certNoDigest).2.2.2 rfl (by decide) (by decide)⟩

/-- Claim C7: the middleware calls the handler exactly when it has
attached an identity whose authenticated marker (`valid`) is true, and
the identity is absent exactly when a response was sent, so absence of
the identity is equivalent to denial. -/
theorem c7_next_iff_identity (st : Store) (req : Request) :
    ((validateClientCertificate st req).1.nextCalled = true ↔
      ∃ id2, (validateClientCertificate st req).1.clientCertificate = some id2 ∧
        id2.valid = true) ∧
    ((validateClientCertificate st req).1.clientCertificate = none ↔
      (validateClientCertificate st req).1.response.isSome = true) ∧
    ((validateClientCertificate st req).1.nextCalled = false →
      (validateClientCertificate st req).1.clientCertificate = none) := by
  rcases validate_shape st req with ⟨h1, h2, h3⟩ | ⟨h1, h2, h3⟩
  · refine ⟨⟨fun _ => h3, fun _ => h1⟩, ⟨?_, ?_⟩, ?_⟩
    · intro hc
      obtain ⟨id2, hid, _⟩ := h3
      rw [hc] at hid
      exact absurd hid (by simp)
    · intro hr
      rw [h2] at hr
      simp at hr
    · intro hn
      rw [h1] at hn
      simp at hn
  · refine ⟨⟨?_, ?_⟩, ⟨fun _ => h3, fun _ => h2⟩, fun _ => h2⟩
    · intro hn
      rw [h1] at hn
      simp at hn
    · intro hex
      obtain ⟨id2, hid, _⟩ := hex
      rw [h2] at hid
      exact absurd hid (by simp)

/-- Claim C7 witness: on the admitted request `reqAuth` an authenticated
identity is attached; on the denied request `reqUnauth` none is. -/
theorem c7_next_iff_identity_witness :
    (∃ id2, (validateClientCertificate stAllow reqAuth).1.clientCertificate = some id2 ∧
      id2.valid = true) ∧
    ((validateClientCertificate stAllow reqUnauth).1.clientCertificate = none) := by
  constructor
  · exact (c7_next_iff_identity stAllow reqAuth).1.mp (by decide)
  · exact (c7_next_iff_identity stAllow reqUnauth).2.2 (by decide)

/-- Claim C8 counterexample: a request whose getPeerCertificate throws is
answered with the 401 "Certificate parsing failed" response of the inner
catch, not with the generic 500 internal-error response. -/
theorem c8_parse_fault_cx :
    (validateClientCertificate stAllow reqThrow).1 =
      denyResult 401 "Client certificate validation failed" "Certificate parsing failed" ∧
    (validateClientCertificate stAllow reqThrow).1 ≠
      denyResult 500 "Internal server error during certificate validation"
        "Please contact administrator" := by decide

/-- Claim C8 amended: every internal fault is caught inside
validateClientCertificate and never propagates: a throw from
getPeerCertificate is converted by the inner catch into a 401 response
with details "Certificate parsing failed", any fault escaping the body is
converted by the outer catch into the generic 500 internal-error
response, and every run either sends a response or calls the handler. -/
theorem c8_fault_containment (st : Store) (req : Request) :
    ((∃ msg, req.peerCert = Except.error msg) →
      (validateClientCertificate st req).1 =
        denyResult 401 "Client certificate validation failed" "Certificate parsing failed") ∧
    (∀ msg st1, validateBody st req = (Except.error msg, st1) →
      (validateClientCertificate st req).1 =
        denyResult 500 "Internal server error during certificate validation"
          "Please contact administrator") ∧
    ((validateClientCertificate st req).1.response.isSome = true ∨
      (validateClientCertificate st req).1.nextCalled = true) := by
  refine ⟨?_, ?_, ?_⟩
  · rintro ⟨msg, hmsg⟩
    unfold validateClientCertificate validateBody
    rw [hmsg]
  · intro msg st1 hb
    unfold validateClientCertificate
    rw [hb]
  · rcases validate_shape st req with ⟨h1, _, _⟩ | ⟨_, _, h3⟩
    · right; exact h1
    · left; exact h3

/-- Claim C8 witness: the two fault conversions applied to `reqThrow`
(getPeerCertificate throws) and `reqNoSocket` (reading
req.socket.authorized throws in the body). -/
theorem c8_fault_containment_witness :
    ((validateClientCertificate stAllow reqThrow).1 =
      denyResult 401 "Client certificate validation failed" "Certificate parsing failed") ∧
    ((validateClientCertificate stAllow reqNoSocket).1 =
      denyResult 500 "Internal server error during certificate validation"
        "Please contact administrator") := by
  constructor
  · exact (c8_fault_containment stAllow reqThrow).1 ⟨"boom", rfl⟩
  · exact (c8_fault_containment stAllow reqNoSocket).2.1
      "TypeError: cannot read authorized of undefined" stAllow (by rfl)

/-- Claim C9: in an enabled document containing an enabled entry with no
fingerprint field, every certificate whose selected digest is also absent
is admitted: the undefined entry fingerprint compares equal to the
undefined presented fingerprint, so the malformed entry fails open. -/
theorem c9_undefined_fingerprint_fail_open (cfg : WhitelistConfig) (cert : JsCert)
    (hen : cfg.whitelistEnabled = true)
    (hentry : ∃ e ∈ cfg.whitelistedCertificates.getD [],
      e.enabled = true ∧ e.fingerprint = none)
    (hfp : getClientFingerprint cfg cert = none) :
    (checkWhitelistLoaded cfg cert).allowed = true := by
  have hsome : ((cfg.whitelistedCertificates.getD []).find?
      (fun c => c.enabled && c.fingerprint == getClientFingerprint cfg cert)).isSome := by
    rw [List.find?_isSome]
    obtain ⟨e, he, hee, hef⟩ := hentry
    exact ⟨e, he, by simp [hee, hef, hfp]⟩
  obtain ⟨m, hm⟩ := Option.isSome_iff_exists.mp hsome
  simp [checkWhitelistLoaded, hen, hm]

/-- Claim C9 witness: the theorem applied to `cfgNoFp` (enabled entry
without fingerprint) and `certNoDigest` under sha256. -/
theorem c9_undefined_fingerprint_fail_open_witness :
    (checkWhitelistLoaded cfgNoFp certNoDigest).allowed = true := by
  exact c9_undefined_fingerprint_fail_open cfgNoFp certNoDigest rfl (by decide) (by decide)

/-- Claim C10: checkCertificateWhitelist reads the backing file only when
the in-memory document is null; once a document is installed the decision
and the state depend only on the in-memory copy, a changed backing file
does not affect the decision, the null case loads and installs the file
content, and only an explicit loadWhitelist call picks up the change. -/
theorem c10_no_auto_reload (cfg : WhitelistConfig) (f f2 : ReadResult) (cert : JsCert) :
    (∀ s : Store, s.whitelistConfig = some cfg →
      checkCertificateWhitelist s cert = (checkWhitelistLoaded cfg cert, s)) ∧
    ((checkCertificateWhitelist { whitelistConfig := some cfg, file := f } cert).1 =
      (checkCertificateWhitelist { whitelistConfig := some cfg, file := f2 } cert).1) ∧
    (checkCertificateWhitelist { whitelistConfig := none, file := f } cert =
      (checkWhitelistLoaded (loadWhitelist f) cert,
        { whitelistConfig := some (loadWhitelist f), file := f })) ∧
    ((checkCertificateWhitelist (loadWhitelistS { whitelistConfig := some cfg, file := f }) cert).1 =
      checkWhitelistLoaded (loadWhitelist f) cert) := by
  refine ⟨?_, ?_, ?_, ?_⟩
  · intro s hs
    rcases s with ⟨mc, fl⟩
    simp at hs
    subst hs
    simp [checkCertificateWhitelist, ensureLoaded]
  · simp [checkCertificateWhitelist, ensureLoaded]
  · simp [checkCertificateWhitelist, ensureLoaded, loadWhitelistS]
  · simp [checkCertificateWhitelist, ensureLoaded, loadWhitelistS]

/-- Claim C10 witness: with `cfgAllow` installed, the decision for
`certOk` is the pure in-memory decision and the state is unchanged. -/
theorem c10_no_auto_reload_witness :
    checkCertificateWhitelist stAllow certOk = (checkWhitelistLoaded cfgAllow certOk, stAllow) := by
  exact (c10_no_auto_reload cfgAllow stAllow.file stAllow.file certOk).1 stAllow rfl

end CertAuth
